import Mathlib

/-!
Shallow embedding of `src/main3_rulebased.py` (loan-applicant field-mapping
and repair service) and verification of the frozen claims about it.

Python strings are modelled as Lean `String` (ASCII data throughout this
program).  Python string operations used by the source (`strip`, `lower`,
`upper`, `title`, `isdigit`, membership, slicing) are modelled character by
character below.  Machine-level concerns (HTTP transport, MySQL driver,
pandas internals) are modelled only where a claim mentions their observable
behaviour: see the comments at `call_llm` and `upsertLoop`.
-/

namespace LoanApp

/-! ### Python string primitives -/

/-- Characters stripped by Python `str.strip()` and matched by the regex
class `\s` (space, tab, LF, CR, vertical tab, form feed). -/
def pySpace (c : Char) : Bool :=
  c = ' ' || c = '\t' || c = '\n' || c = '\r' || c = Char.ofNat 11 || c = Char.ofNat 12

/-- `str.strip()` on the character list. -/
def stripChars (l : List Char) : List Char :=
  ((l.dropWhile pySpace).reverse.dropWhile pySpace).reverse

/-- `str.strip()`. -/
def strip (s : String) : String := ⟨stripChars s.data⟩

/-- `str.lower()` (ASCII). -/
def lowerStr (s : String) : String := ⟨s.data.map Char.toLower⟩

/-- `str.upper()` (ASCII). -/
def upperStr (s : String) : String := ⟨s.data.map Char.toUpper⟩

/-- `str.isdigit()` : non-empty and all decimal digits. -/
def isdigitL (l : List Char) : Bool := !l.isEmpty && l.all Char.isDigit

/-- Decimal value of a digit string (used to model Python `int(...)` on a
string that `isdigit` accepts, and the slice-parse `int(aid[1:])`). -/
def digitsToNat (l : List Char) : Nat :=
  l.foldl (fun a c => a * 10 + (c.toNat - 48)) 0

/-- Python `int(str)` on a stripped string: optional sign followed by a
non-empty run of digits.  (Underscore digit grouping, accepted by Python 3,
is not modelled; no value in this code path ever contains one.) -/
def parseIntL (l : List Char) : Option Int :=
  match l with
  | '-' :: ds => if isdigitL ds then some (-(digitsToNat ds : Int)) else none
  | '+' :: ds => if isdigitL ds then some (digitsToNat ds : Int) else none
  | ds => if isdigitL ds then some (digitsToNat ds : Int) else none

/-- Python `str.title()` : a cased character starting a run of cased
characters is uppercased, subsequent cased characters are lowercased
(ASCII letters are the only cased characters in this data). -/
def titleL : List Char → Bool → List Char
  | [], _ => []
  | c :: cs, prevAlpha =>
    if c.isAlpha then
      (if prevAlpha then c.toLower else c.toUpper) :: titleL cs true
    else c :: titleL cs false

/-- `str.title()`. -/
def title (s : String) : String := ⟨titleL s.data false⟩

/-- Substring test, Python `sub in s`. -/
def containsSub (l sub : List Char) : Bool :=
  (List.range (l.length + 1)).any (fun i => sub.isPrefixOf (l.drop i))

/-! ### Controlled lists (source lines 22-29) -/

def LOAN_PURPOSES : List String :=
  ["education", "home renovation", "car", "business", "personal", "medical"]

def EMPLOYMENT_TYPES : List String :=
  ["salaried", "self employed", "unemployed"]

/-! ### Validators (source lines 57-92) -/

/-- `valid_id` : regex `^A\d+$` on the stripped value. -/
def valid_id (s : String) : Bool :=
  match stripChars s.data with
  | 'A' :: ds => isdigitL ds
  | _ => false

/-- A character allowed in every part of the e-mail regex: not `@`, not
whitespace (regex class `[^@\s]`). -/
def emailChar (c : Char) : Bool := !(c = '@') && !pySpace c

/-- There is a dot splitting `R` as `B ++ "." ++ C` with `B` non-empty and
`C` of length at least 2 (the `[^@\s]+\.[^@\s]{2,}$` tail of the regex;
both `B` and `C` may themselves contain further dots). -/
def hasDotSplit (R : List Char) : Bool :=
  (List.range R.length).any
    (fun p => decide (1 ≤ p) && (R.getD p ' ' = '.') && decide (p + 3 ≤ R.length))

/-- `valid_email` : regex `^[^@\s]+@[^@\s]+\.[^@\s]{2,}$` on the stripped
value.  The local part is everything before the (necessarily unique) `@`. -/
def valid_email (s : String) : Bool :=
  let l := stripChars s.data
  let A := l.takeWhile (fun c => !(c = '@'))
  match l.drop A.length with
  | '@' :: R => !A.isEmpty && A.all emailChar && R.all emailChar && hasDotSplit R
  | _ => false

/-- `valid_phone` : stripped value is exactly 10 digits with leading digit
in `{6,7,8,9}`. -/
def valid_phone (s : String) : Bool :=
  let l := stripChars s.data
  isdigitL l && decide (l.length = 10) &&
    (match l with
     | c :: _ => c = '6' || c = '7' || c = '8' || c = '9'
     | [] => false)

/-- `valid_aadhaar` : stripped value is exactly 12 digits. -/
def valid_aadhaar (s : String) : Bool :=
  let l := stripChars s.data
  isdigitL l && decide (l.length = 12)

def isUpperAZ (c : Char) : Bool := 'A' ≤ c && c ≤ 'Z'

/-- `valid_pan` : regex `^[A-Z]{5}[0-9]{4}[A-Z]$` on the uppercased
stripped value. -/
def valid_pan (s : String) : Bool :=
  let l := (stripChars s.data).map Char.toUpper
  decide (l.length = 10) && (l.take 5).all isUpperAZ &&
    ((l.drop 5).take 4).all Char.isDigit && (l.drop 9).all isUpperAZ

/-- `valid_loan_amount` : `int(...)`-parseable and in `[500000, 10000000]`. -/
def valid_loan_amount (s : String) : Bool :=
  match parseIntL (stripChars s.data) with
  | some n => decide (500000 ≤ n) && decide (n ≤ 10000000)
  | none => false

/-- `valid_monthly_income` : `int(...)`-parseable and in `[25000, 1000000]`. -/
def valid_monthly_income (s : String) : Bool :=
  match parseIntL (stripChars s.data) with
  | some n => decide (25000 ≤ n) && decide (n ≤ 1000000)
  | none => false

/-- Python `str.split()` with no separator: maximal non-space runs. -/
def splitWsL : List Char → List (List Char)
  | [] => []
  | c :: cs =>
    if pySpace c then splitWsL cs
    else
      match splitWsL cs with
      | [] => [[c]]
      | w :: ws =>
        match cs with
        | [] => [[c]]
        | c' :: _ => if pySpace c' then [c] :: w :: ws else (c :: w) :: ws

/-- `valid_name` : at least two whitespace-separated tokens, the stripped
value matches `^[A-Za-z ]+$`, and every token has length at least 2. -/
def valid_name (s : String) : Bool :=
  let l := stripChars s.data
  let parts := splitWsL l
  decide (2 ≤ parts.length) &&
    (!l.isEmpty && l.all (fun c => c.isAlpha || c = ' ')) &&
    parts.all (fun p => decide (2 ≤ p.length))

/-! ### Helpers (source lines 97-106) -/

/-- `is_null` : the stripped string is one of the six literal placeholder
spellings.  The match is exact, not case-insensitive. -/
def is_null (s : String) : Bool :=
  strip s ∈ (["nan", "None", "NaT", "none", "null", ""] : List String)

/-- `normalize_number` / the STEP-1 fix-up in `repair`: value of the form
`[sign] digits [. digits] (e|E) + digits`, evaluated exactly in decimal and
truncated toward zero as `int(float(val))` does.  (Python computes through a
binary double; for every value this repository feeds the branch the decimal
result is exactly representable, so exact decimal evaluation is faithful.
On any parse failure the `except: pass` keeps the original string.) -/
def parseSciCore (l : List Char) : Option Int :=
  match l.span (fun c => !(c = 'e') && !(c = 'E')) with
  | (mant, rest) =>
    match rest with
    | _ :: '+' :: exps =>
      if isdigitL exps then
        match mant.span (fun c => !(c = '.')) with
        | (ip, fp') =>
          let fp := match fp' with
            | _ :: t => t
            | [] => []
          if (fp'.isEmpty || fp.all (fun c => !(c = '.'))) &&
              !(ip ++ fp).isEmpty && (ip ++ fp).all Char.isDigit then
            some ((digitsToNat (ip ++ fp) * 10 ^ digitsToNat exps / 10 ^ fp.length : Nat) : Int)
          else none
      else none
    | _ => none

/-- Sign handling of `int(float(val))`; truncation is toward zero. -/
def parseSci (l : List Char) : Option Int :=
  match l with
  | '-' :: t => (parseSciCore t).map (fun i => -i)
  | '+' :: t => parseSciCore t
  | _ => parseSciCore l

/-- STEP 1 of `repair` (source lines 249-262): strip the raw cell value and,
when it contains `e+` case-insensitively, replace it by `str(int(float(val)))`,
keeping the stripped original whenever the float parse fails. -/
def normalizeVal (v : String) : String :=
  let val := strip v
  if containsSub (val.data.map Char.toLower) ['e', '+'] then
    match parseSci val.data with
    | some i => toString i
    | none => val
  else val

/-! ### Identifier allocator (source lines 111-128)

`_used_ids` is a process-global set cleared at the start of each batch; we
thread it explicitly.  The store read yields the numeric suffixes of the
`A<digits>`-shaped identifiers in the persisted table (`db_ids`); on a read
failure the code degrades to `db_ids = ∅`, which is the same function applied
to the empty store, so one parameter covers both cases. -/

/-- The `while n in all_used: n += 1` search.  The Python loop is unbounded
but from any start can run at most `card + 1` times before hitting a number
outside `all_used`; the fuel below is that bound (in fact the loop body never
runs, because the start value already exceeds every member — proved in
`nextIdNum_eq`). -/
def findFree (used : Finset Nat) : Nat → Nat → Nat
  | 0, n => n
  | fuel + 1, n => if n ∈ used then findFree used fuel (n + 1) else n

/-- Numeric suffix chosen by `next_id`: start above the maximum of
`db_ids ∪ _used_ids` (or at 101 when both are empty) and scan upward. -/
def nextIdNum (dbIds used : Finset Nat) : Nat :=
  let all := dbIds ∪ used
  let start := if all = ∅ then 101 else all.sup id + 1
  findFree all (all.card + 1) start

/-- `next_id()` : returns `f"A{n}"` and records `n` in the batch set. -/
def next_id (dbIds used : Finset Nat) : String × Finset Nat :=
  let n := nextIdNum dbIds used
  ("A" ++ toString n, insert n used)

/-- `int(aid[1:])` for an `A<digits>` identifier. -/
def idSuffix (s : String) : Nat := digitsToNat (s.data.drop 1)

/-! ### Canonical record (the ten columns of `ensure_columns`) -/

structure Record where
  applicant_id : Option String
  applicant_name : Option String
  phone_number : Option String
  email : Option String
  aadhaar_number : Option String
  pan_number : Option String
  loan_amount : Option String
  loan_purpose : Option String
  employment_type : Option String
  monthly_income : Option String
deriving DecidableEq, Repr

def emptyRecord : Record :=
  ⟨none, none, none, none, none, none, none, none, none, none⟩

/-- `str(cell)` on a dataframe cell: an absent value prints as `"None"`. -/
def strOfCell : Option String → String
  | some s => s
  | none => "None"

/-- FIELD_VALIDATORS entry for `loan_purpose`:
`str(v).strip().lower() in LOAN_PURPOSES`. -/
def valid_purpose (s : String) : Bool := lowerStr (strip s) ∈ LOAN_PURPOSES

/-- FIELD_VALIDATORS entry for `employment_type`. -/
def valid_employment (s : String) : Bool := lowerStr (strip s) ∈ EMPLOYMENT_TYPES

/-- One cell of the `invalidate` pass: null the cell when the stripped
printed value is a placeholder or fails the field's validator. -/
def invalidateCell (validator : String → Bool) (c : Option String) : Option String :=
  let val := strip (strOfCell c)
  if is_null val || !validator val then none else c

/-- PASS 1 — `invalidate` (source lines 207-216): wipe every cell failing
its field's validator, skipping `loan_amount` and `monthly_income`. -/
def invalidate (r : Record) : Record :=
  { applicant_id := invalidateCell valid_id r.applicant_id
    applicant_name := invalidateCell valid_name r.applicant_name
    phone_number := invalidateCell valid_phone r.phone_number
    email := invalidateCell valid_email r.email
    aadhaar_number := invalidateCell valid_aadhaar r.aadhaar_number
    pan_number := invalidateCell valid_pan r.pan_number
    loan_amount := r.loan_amount
    loan_purpose := invalidateCell valid_purpose r.loan_purpose
    employment_type := invalidateCell valid_employment r.employment_type
    monthly_income := r.monthly_income }

/-! ### Value classification (STEP 2 of `repair`, source lines 267-316) -/

inductive Classified where
  | cid : String → Classified
  | cemail : String → Classified
  | cpan : String → Classified
  | caadhaar : String → Classified
  | cphone : String → Classified
  | cemployment : String → Classified
  | cpurpose : String → Classified
  | cnumeric : Nat → Classified
  | cname : String → Classified
  | discarded : Classified
deriving DecidableEq, Repr

/-- First-match-wins classification of one normalized raw value, in the
source's order of `if`/`continue` tests. -/
def classifyValue (v : String) : Classified :=
  let lv := lowerStr v
  if valid_id v then .cid v
  else if valid_email v then .cemail v
  else if valid_pan v then .cpan (upperStr v)
  else if valid_aadhaar v then .caadhaar v
  else if valid_phone v then .cphone v
  else if lv ∈ EMPLOYMENT_TYPES then .cemployment (title lv)
  else if lv ∈ LOAN_PURPOSES then .cpurpose (title lv)
  else if isdigitL v.data then .cnumeric (digitsToNat v.data)
  else if 3 ≤ v.length ∧ v.data.all (fun c => !c.isDigit) then .cname (title v)
  else .discarded

structure Buckets where
  bid : List String
  bemail : List String
  bphone : List String
  baadhaar : List String
  bpan : List String
  bname : List String
  bemployment : List String
  bpurpose : List String
  bnumeric : List Nat
deriving DecidableEq, Repr

def emptyBuckets : Buckets := ⟨[], [], [], [], [], [], [], [], []⟩

def addToBuckets (b : Buckets) (v : String) : Buckets :=
  match classifyValue v with
  | .cid s => { b with bid := b.bid ++ [s] }
  | .cemail s => { b with bemail := b.bemail ++ [s] }
  | .cpan s => { b with bpan := b.bpan ++ [s] }
  | .caadhaar s => { b with baadhaar := b.baadhaar ++ [s] }
  | .cphone s => { b with bphone := b.bphone ++ [s] }
  | .cemployment s => { b with bemployment := b.bemployment ++ [s] }
  | .cpurpose s => { b with bpurpose := b.bpurpose ++ [s] }
  | .cnumeric n => { b with bnumeric := b.bnumeric ++ [n] }
  | .cname s => { b with bname := b.bname ++ [s] }
  | .discarded => b

def mkBuckets (vals : List String) : Buckets :=
  vals.foldl addToBuckets emptyBuckets

/-! ### Numeric split (STEP 4 of `repair`, source lines 350-369) -/

/-- Python truthiness of the `income` / `loan` locals: `None` and `0` are
falsy. -/
def pyTruthy : Option Nat → Bool
  | none => false
  | some n => decide (n ≠ 0)

/-- Insertion into an ascending list (model of `sorted(...)` on naturals). -/
def insertAsc (n : Nat) : List Nat → List Nat
  | [] => [n]
  | m :: ms => if n ≤ m then n :: m :: ms else m :: insertAsc n ms

def sortAsc (l : List Nat) : List Nat := l.foldr insertAsc []

/-- One iteration of the split walk: skip phone-shaped values, then the
`if n < 500000 and not income ... elif n > 500000 and not loan` chain. -/
def splitStep (st : Option Nat × Option Nat) (n : Nat) : Option Nat × Option Nat :=
  if valid_phone (toString n) then st
  else if n < 500000 ∧ pyTruthy st.1 = false then (some n, st.2)
  else if 500000 < n ∧ pyTruthy st.2 = false then (st.1, some n)
  else st

/-- The final `if income:` / `if loan:` writes: a falsy result is not
written back. -/
def finalizeSplit (st : Option Nat × Option Nat) : Option Nat × Option Nat :=
  ((if pyTruthy st.1 then st.1 else none), (if pyTruthy st.2 then st.2 else none))

/-- The whole numeric-split rule: `(monthly_income, loan_amount)` values
actually written for a numeric bucket. -/
def splitAssign (nums : List Nat) : Option Nat × Option Nat :=
  finalizeSplit ((sortAsc nums).foldl splitStep (none, none))

/-! ### Row repair (source lines 233-371) -/

/-- The bucket-to-field writes of STEP 3 (source lines 324-343): for each
format-detected field, overwrite it with the first bucket member when the
bucket is non-empty. -/
def assignFormatFields (r : Record) (b : Buckets) : Record :=
  let r2 := match b.bemail with
    | v :: _ => { r with email := some v }
    | [] => r
  let r3 := match b.bpan with
    | v :: _ => { r2 with pan_number := some v }
    | [] => r2
  let r4 := match b.baadhaar with
    | v :: _ => { r3 with aadhaar_number := some v }
    | [] => r3
  let r5 := match b.bphone with
    | v :: _ => { r4 with phone_number := some v }
    | [] => r4
  let r6 := match b.bemployment with
    | v :: _ => { r5 with employment_type := some v }
    | [] => r5
  let r7 := match b.bpurpose with
    | v :: _ => { r6 with loan_purpose := some v }
    | [] => r6
  match b.bname with
  | v :: _ => { r7 with applicant_name := some v }
  | [] => r7

/-- STEP 4's write-back: the two `if income:` / `if loan:` assignments. -/
def applySplit (r : Record) (nums : List Nat) : Record :=
  let st := splitAssign nums
  let r9 := match st.1 with
    | some m => { r with monthly_income := some (toString m) }
    | none => r
  match st.2 with
  | some l => { r9 with loan_amount := some (toString l) }
  | none => r9

/-- The per-row body of `repair`: normalize the original row's raw values,
classify them into buckets, assign `applicant_id` (allocating when the id
bucket is empty), overwrite the format-detected fields from non-empty
buckets, and apply the numeric split.  Returns the repaired record and the
updated batch identifier set. -/
def repairRow (dbIds used : Finset Nat) (r : Record) (origVals : List String) :
    Record × Finset Nat :=
  let raw := (origVals.filter (fun v => !is_null v)).map normalizeVal
  let b := mkBuckets raw
  let (aid, used1) :=
    match b.bid with
    | v :: _ => (v, used)
    | [] => next_id dbIds used
  let used2 := insert (idSuffix aid) used1
  let r1 := { r with applicant_id := some aid }
  (applySplit (assignFormatFields r1 b) b.bnumeric, used2)

/-- The pre-loop collision-prevention scan of `repair` (source lines
237-239): register every valid pre-existing `applicant_id` of the mapped
frame into the batch set. -/
def preRegister (rows : List (Record × List String)) (used : Finset Nat) : Finset Nat :=
  rows.foldl
    (fun u rw =>
      match rw.1.applicant_id with
      | some aid => if valid_id aid then insert (idSuffix (strip aid)) u else u
      | none => u)
    used

/-- The row loop of `repair`, threading the batch identifier set. -/
def repairRows (dbIds : Finset Nat) (used : Finset Nat) :
    List (Record × List String) → List Record
  | [] => []
  | rw :: rest =>
    let p := repairRow dbIds used rw.1 rw.2
    p.1 :: repairRows dbIds p.2 rest

/-- `repair(df, original_df, col_map)` : each list element pairs a mapped
record with the original row's raw cell values.  The batch set starts empty
(`_used_ids.clear()` runs at the top of both endpoints). -/
def repairAll (dbIds : Finset Nat) (rows : List (Record × List String)) : List Record :=
  repairRows dbIds (preRegister rows ∅) rows

/-! ### Endpoint pipeline (source lines 429-488)

A raw row is a list of `(column name, cell value)` pairs in sheet order
(each column name occurring once, as in a spreadsheet header).  Both
endpoints run `_used_ids.clear()`, rename columns per the advisory mapping,
run `ensure_columns` and then `repair` — `invalidate` is NOT called by
either endpoint. -/

/-- `df.rename(columns=mp)` on one column name. -/
def renameCol (mp : List (String × String)) (c : String) : String :=
  match mp.find? (fun kv => kv.1 = c) with
  | some kv => kv.2
  | none => c

/-- Cell of the first column carrying name `field` (absent → `None`,
exactly what `ensure_columns` fills in). -/
def colValue (row : List (String × String)) (field : String) : Option String :=
  (row.find? (fun cv => cv.1 = field)).map (fun cv => cv.2)

/-- `ensure_columns` applied to a renamed row: the ten canonical columns,
missing ones absent. -/
def ensureRecord (row : List (String × String)) : Record :=
  { applicant_id := colValue row "applicant_id"
    applicant_name := colValue row "applicant_name"
    phone_number := colValue row "phone_number"
    email := colValue row "email"
    aadhaar_number := colValue row "aadhaar_number"
    pan_number := colValue row "pan_number"
    loan_amount := colValue row "loan_amount"
    loan_purpose := colValue row "loan_purpose"
    employment_type := colValue row "employment_type"
    monthly_income := colValue row "monthly_income" }

/-- `df.rename(columns=mp)` then `ensure_columns` on one raw row. -/
def mappedRecord (mp : List (String × String)) (row : List (String × String)) : Record :=
  ensureRecord (row.map (fun cv => (renameCol mp cv.1, cv.2)))

/-- The frame both endpoints hand to `upsert` / the preview: rename,
ensure columns, repair.  (`invalidate` does not appear here because the
endpoints never call it.) -/
def validateProcess (dbIds : Finset Nat) (mp : List (String × String))
    (rows : List (List (String × String))) : List Record :=
  repairAll dbIds (rows.map (fun row => (mappedRecord mp row, row.map (fun cv => cv.2))))

/-- The pipeline as the spec's state machine describes it, with the
`INVALIDATED` pass inserted between `MAPPING_APPLIED` and `REPAIRED`;
`invalidate` itself is translated from the source (lines 207-216).  Used to
exhibit how the shipped pipeline diverges from it. -/
def specProcess (dbIds : Finset Nat) (mp : List (String × String))
    (rows : List (List (String × String))) : List Record :=
  repairAll dbIds
    (rows.map (fun row => (invalidate (mappedRecord mp row), row.map (fun cv => cv.2))))

/-- `fillna("")` on one record. -/
def fillNa (r : Record) : Record :=
  { applicant_id := some (r.applicant_id.getD "")
    applicant_name := some (r.applicant_name.getD "")
    phone_number := some (r.phone_number.getD "")
    email := some (r.email.getD "")
    aadhaar_number := some (r.aadhaar_number.getD "")
    pan_number := some (r.pan_number.getD "")
    loan_amount := some (r.loan_amount.getD "")
    loan_purpose := some (r.loan_purpose.getD "")
    employment_type := some (r.employment_type.getD "")
    monthly_income := some (r.monthly_income.getD "") }

/-- The `validate` endpoint's preview payload:
`df.head(20).fillna("").to_dict("records")`. -/
def validatePreview (dbIds : Finset Nat) (mp : List (String × String))
    (rows : List (List (String × String))) : List Record :=
  ((validateProcess dbIds mp rows).take 20).map fillNa

/-! ### Upsert persistence (source lines 375-410)

The store is the `loan_applicants` table: an association list keyed by
`applicant_id` in insertion order, each row carrying the nine non-key
columns.  The source wraps the WHOLE batch in one `engine.begin()` block:
SQLAlchemy commits only when the block exits normally and rolls every
statement of the block back when any statement raises, after which the
exception propagates.  A write failure is injected through the `failsOn`
predicate (which record's INSERT/UPDATE the engine rejects); `none` from
the loop means the exception propagated and the rollback left the durable
store untouched. -/

structure DbRow where
  applicant_name : Option String
  phone_number : Option String
  email : Option String
  aadhaar_number : Option String
  pan_number : Option String
  loan_amount : Option String
  loan_purpose : Option String
  employment_type : Option String
  monthly_income : Option String
deriving DecidableEq, Repr

/-- `None if is_null(str(v)) else v` on one cell. -/
def nullifyOpt : Option String → Option String
  | none => none
  | some s => if is_null s then none else some s

/-- The non-key columns of the dict `d` bound into the SQL statements. -/
def toDbRow (r : Record) : DbRow :=
  { applicant_name := nullifyOpt r.applicant_name
    phone_number := nullifyOpt r.phone_number
    email := nullifyOpt r.email
    aadhaar_number := nullifyOpt r.aadhaar_number
    pan_number := nullifyOpt r.pan_number
    loan_amount := nullifyOpt r.loan_amount
    loan_purpose := nullifyOpt r.loan_purpose
    employment_type := nullifyOpt r.employment_type
    monthly_income := nullifyOpt r.monthly_income }

/-- `d["applicant_id"]` after the placeholder scrub. -/
def keyOf (r : Record) : Option String := nullifyOpt r.applicant_id

abbrev Store := List (String × DbRow)

/-- `SELECT ... WHERE applicant_id=:id`. -/
def storeLookup (st : Store) (k : String) : Option DbRow :=
  (st.find? (fun kv => kv.1 = k)).map (fun kv => kv.2)

/-- The `UPDATE` statement: overwrite the non-key columns of the row keyed
`k`. -/
def storeUpd (st : Store) (k : String) (row : DbRow) : Store :=
  st.map (fun kv => if kv.1 = k then (k, row) else kv)

/-- The record loop inside `engine.begin()`.  `none` models an exception
escaping the block: either the engine rejected the record's write
(`failsOn`) or the record's key is `NULL`, which the `INSERT` into the
primary-key column rejects. -/
def upsertLoop (failsOn : Record → Bool) :
    List Record → Store → Nat → Nat → Option (Store × Nat × Nat)
  | [], st, ins, upd => some (st, ins, upd)
  | r :: rest, st, ins, upd =>
    if failsOn r then none
    else
      let d := toDbRow r
      match keyOf r with
      | some k =>
        match storeLookup st k with
        | some _ => upsertLoop failsOn rest (storeUpd st k d) ins (upd + 1)
        | none => upsertLoop failsOn rest (st ++ [(k, d)]) (ins + 1) upd
      | none => none

/-- `upsert(df)` : `some (store', inserted, updated)` on a normal return,
`none` when the transaction aborted. -/
def upsertRes (failsOn : Record → Bool) (st : Store) (rs : List Record) :
    Option (Store × Nat × Nat) :=
  upsertLoop failsOn rs st 0 0

/-- The durable store after the call: the committed result on success, the
original store after the rollback of `engine.begin()` otherwise. -/
def upsertFinalStore (failsOn : Record → Bool) (st : Store) (rs : List Record) : Store :=
  match upsertRes failsOn st rs with
  | some x => x.1
  | none => st

/-- A run with no engine-level write failures. -/
def noFail : Record → Bool := fun _ => false

/-! ### Oracle decoding — `call_llm` (source lines 133-182)

The transport and body-parse stage (`requests.post` + `r.json()`) is
modelled by an `Except`: `Except.error .requestError` is a transport
failure or a non-JSON body, both of which raise before any decoding
happens; `Except.ok raw` is the parsed JSON body.  `json.loads` on the
stringified-mapping case is the `loads` parameter (any parse, `none` =
`json.loads` raised).  Python `in` on a non-container raises `TypeError`,
and indexing a list or string with the key `"result"` / `"mapping"` also
raises `TypeError`; both surface as `.error .typeError`. -/

inductive Json where
  | jnull : Json
  | jbool : Bool → Json
  | jnum : Int → Json
  | jstr : String → Json
  | jarr : List Json → Json
  | jobj : List (String × Json) → Json

inductive PyErr where
  | requestError : PyErr
  | typeError : PyErr
deriving DecidableEq, Repr

/-- Python dict lookup on a parsed JSON object (duplicate keys collapse
last-wins during `json.loads`, hence the reversed search). -/
def jget (fields : List (String × Json)) (k : String) : Option Json :=
  (fields.reverse.find? (fun kv => kv.1 = k)).map (fun kv => kv.2)

/-- Python `==` between the string `s` and a JSON value (list membership). -/
def isStrEq (j : Json) (s : String) : Bool :=
  match j with
  | .jstr t => t = s
  | _ => false

/-- `{k: v for k, v in mp.items() if k != "is_valid"}`. -/
def dropIsValid (mp : List (String × Json)) : List (String × Json) :=
  mp.filter (fun kv => !(kv.1 = "is_valid"))

/-- The mapping-extraction steps of `call_llm` on a dict body. -/
def extractMapping (loads : String → Option Json) (fields : List (String × Json)) :
    List (String × Json) :=
  let mp0 : Json :=
    match jget fields "result" with
    | some (Json.jobj rf) =>
      match jget rf "mapping" with
      | some m => m
      | none =>
        match jget rf "result" with
        | some m => m
        | none => Json.jobj []
    | _ => Json.jobj []
  let mp1 : Json :=
    match jget fields "mapping" with
    | some m => m
    | none => mp0
  let mp2 : Json :=
    match mp1 with
    | Json.jstr s =>
      match loads s with
      | some j => j
      | none => Json.jobj []
    | j => j
  match mp2 with
  | Json.jobj f => dropIsValid f
  | _ => []

/-- `call_llm` end to end: transport/parse errors reach the decode stage as
exceptions and propagate; non-dict bodies raise `TypeError` exactly where
CPython would (membership test on a non-container, or `raw["result"]` /
`raw["mapping"]` indexing on a list or string). -/
def call_llm (loads : String → Option Json) (resp : Except PyErr Json) :
    Except PyErr (List (String × Json)) :=
  match resp with
  | .error e => .error e
  | .ok raw =>
    match raw with
    | .jobj fields => .ok (extractMapping loads fields)
    | .jarr xs =>
      if xs.any (fun j => isStrEq j "result") then .error .typeError
      else if xs.any (fun j => isStrEq j "mapping") then .error .typeError
      else .ok []
    | .jstr s =>
      if containsSub s.data "result".data then .error .typeError
      else if containsSub s.data "mapping".data then .error .typeError
      else .ok []
    | .jnum _ => .error .typeError
    | .jbool _ => .error .typeError
    | .jnull => .error .typeError

/-- A numeric value the walk can end up assigning to `monthly_income`:
not phone-shaped, non-zero (zero is conflated with "unassigned" by Python
falsiness), strictly below 500000. -/
def pIncP (n : Nat) : Bool :=
  !valid_phone (toString n) && decide (0 < n) && decide (n < 500000)

/-- A numeric value the walk can end up assigning to `loan_amount`. -/
def pLoanP (n : Nat) : Bool :=
  !valid_phone (toString n) && decide (500000 < n)

/-! ### Concrete records used in the upsert scenarios -/

def recA1 : Record :=
  { emptyRecord with applicant_id := some "A1", applicant_name := some "Ann Lee" }

def recA2 : Record :=
  { emptyRecord with applicant_id := some "A2", applicant_name := some "Bo Chan" }

/-- A persistence engine that rejects exactly the writes of the record keyed
`A2`. -/
def failsA2 : Record → Bool := fun r => decide (r.applicant_id = some "A2")

def recW : Record :=
  { emptyRecord with applicant_id := some "A300", email := some "w@x.com" }

/-! ### Decimal-representation facts

`next_id` builds identifiers with `f"A{n}"`; to reason about identifier
strings we prove that `digitsToNat` inverts `Nat.repr`. -/

/-- `digitsToNat` with an explicit accumulator. -/
def valFrom (init : Nat) (l : List Char) : Nat :=
  l.foldl (fun a c => a * 10 + (c.toNat - 48)) init

/-- Number of decimal digits. -/
def dlen (n : Nat) : Nat :=
  if h : n < 10 then 1
  else
    have : n / 10 < n := Nat.div_lt_self (by omega) (by omega)
    dlen (n / 10) + 1

lemma digitChar_val : ∀ m : Nat, m < 10 → (Nat.digitChar m).toNat - 48 = m := by decide

lemma valFrom_nil (init : Nat) : valFrom init [] = init := rfl

lemma valFrom_cons (init : Nat) (c : Char) (l : List Char) :
    valFrom init (c :: l) = valFrom (init * 10 + (c.toNat - 48)) l := rfl

lemma toDigitsCore_val (fuel : Nat) : ∀ (n : Nat) (acc : List Char) (init : Nat),
    0 < fuel → n < 10 ^ fuel →
    valFrom init (Nat.toDigitsCore 10 fuel n acc) = valFrom (init * 10 ^ dlen n + n) acc := by
  induction fuel with
  | zero => intro n acc init h; omega
  | succ fuel ih =>
    intro n acc init _ hlt
    by_cases hdiv : n / 10 = 0
    · have hn10 : n < 10 := by
        by_contra hcon
        have h10 : 10 ≤ n := by omega
        have h1 : 1 ≤ n / 10 := (Nat.le_div_iff_mul_le (by omega)).mpr (by omega)
        omega
      have hmod : n % 10 = n := Nat.mod_eq_of_lt hn10
      have hd : dlen n = 1 := by rw [dlen]; simp [hn10]
      simp only [Nat.toDigitsCore, hdiv, if_true, hmod]
      rw [valFrom_cons, digitChar_val n hn10, hd, pow_one]
    · have hge : 10 ≤ n := by
        by_contra hcon
        exact hdiv (Nat.div_eq_of_lt (by omega))
      have hfuel : 0 < fuel := by
        rcases Nat.eq_zero_or_pos fuel with h0 | h
        · subst h0; simp at hlt; omega
        · exact h
      have hlt' : n / 10 < 10 ^ fuel := by
        have : n < 10 * 10 ^ fuel := by
          calc n < 10 ^ (fuel + 1) := hlt
          _ = 10 * 10 ^ fuel := by ring
        exact Nat.div_lt_of_lt_mul this
      have hd : dlen n = dlen (n / 10) + 1 := by
        rw [dlen]; simp [Nat.not_lt.mpr hge]
      simp only [Nat.toDigitsCore, hdiv, if_false]
      rw [ih (n / 10) _ init hfuel hlt', valFrom_cons,
        digitChar_val (n % 10) (Nat.mod_lt n (by omega)), hd]
      congr 1
      have hdm : 10 * (n / 10) + n % 10 = n := Nat.div_add_mod n 10
      calc (init * 10 ^ dlen (n / 10) + n / 10) * 10 + n % 10
          = init * (10 ^ dlen (n / 10) * 10) + (10 * (n / 10) + n % 10) := by ring
        _ = init * 10 ^ (dlen (n / 10) + 1) + n := by rw [hdm, pow_succ]

lemma digitsToNat_toString (n : Nat) : digitsToNat (toString n).data = n := by
  have hdata : (toString n).data = Nat.toDigitsCore 10 (n + 1) n [] := rfl
  have hlt : n < 10 ^ (n + 1) := by
    calc n < 10 ^ n := Nat.lt_pow_self (by omega) n
      _ ≤ 10 ^ (n + 1) := Nat.pow_le_pow_right (by omega) (by omega)
  have h := toDigitsCore_val (n + 1) n [] 0 (by omega) hlt
  rw [hdata]
  show valFrom 0 (Nat.toDigitsCore 10 (n + 1) n []) = n
  rw [h, valFrom_nil]
  omega

lemma idSuffix_mk (n : Nat) : idSuffix ("A" ++ toString n) = n := by
  unfold idSuffix
  have hdata : ("A" ++ toString n).data = 'A' :: (toString n).data := by
    cases hs : toString n with
    | mk l => rfl
  rw [hdata, List.drop_one, List.tail_cons]
  exact digitsToNat_toString n

/-! ### Allocator lemmas -/

lemma findFree_of_not_mem (used : Finset Nat) (fuel n : Nat) (h : n ∉ used) :
    findFree used (fuel + 1) n = n := by
  simp [findFree, h]

lemma nextIdNum_eq (dbIds used : Finset Nat) :
    nextIdNum dbIds used =
      if (dbIds ∪ used) = ∅ then 101 else (dbIds ∪ used).sup id + 1 := by
  unfold nextIdNum
  by_cases hall : (dbIds ∪ used) = ∅
  · simp only [hall, if_true]
    exact findFree_of_not_mem _ _ _ (by simp [hall])
  · simp only [hall, if_false]
    refine findFree_of_not_mem _ _ _ ?_
    intro hmem
    have : (dbIds ∪ used).sup id + 1 ≤ (dbIds ∪ used).sup id :=
      Finset.le_sup (f := id) hmem
    omega

lemma mem_lt_nextIdNum (dbIds used : Finset Nat) :
    ∀ m ∈ dbIds ∪ used, m < nextIdNum dbIds used := by
  intro m hm
  rw [nextIdNum_eq]
  have hne : ¬(dbIds ∪ used) = ∅ := by
    intro h; rw [h] at hm; simp at hm
  simp only [hne, if_false]
  have : id m ≤ (dbIds ∪ used).sup id := Finset.le_sup hm
  simp only [id] at this
  omega

lemma nextIdNum_not_mem (dbIds used : Finset Nat) :
    nextIdNum dbIds used ∉ dbIds ∪ used := by
  intro hmem
  exact absurd rfl (Nat.ne_of_lt (mem_lt_nextIdNum dbIds used _ hmem))

/-! ### Numeric-split characterization -/

lemma splitFold_char (l : List Nat) : ∀ st : Option Nat × Option Nat,
    finalizeSplit (l.foldl splitStep st) =
      ((if pyTruthy st.1 then st.1 else (l.filter pIncP).head?),
       (if pyTruthy st.2 then st.2 else (l.filter pLoanP).head?)) := by
  induction l with
  | nil => intro st; simp [finalizeSplit]
  | cons n rest ih =>
    intro st
    obtain ⟨inc, loan⟩ := st
    by_cases hph : valid_phone (toString n) = true
    · have hstep : splitStep (inc, loan) n = (inc, loan) := by simp [splitStep, hph]
      simp [List.foldl_cons, hstep, ih, List.filter_cons, pIncP, pLoanP, hph]
    · by_cases h1 : n < 500000 ∧ pyTruthy inc = false
      · have hstep : splitStep (inc, loan) n = (some n, loan) := by
          simp [splitStep, hph, h1]
        by_cases hz : n = 0
        · subst hz
          have hpi : pIncP 0 = false := by simp [pIncP]
          have hpl : pLoanP 0 = false := by simp [pLoanP]
          have htr0 : pyTruthy (some 0) = false := by simp [pyTruthy]
          simp [List.foldl_cons, hstep, ih, List.filter_cons, hpi, hpl, h1.2, htr0]
        · have hpi : pIncP n = true := by simp [pIncP, hph, h1.1, Nat.pos_of_ne_zero hz]
          have hpl : pLoanP n = false := by simp [pLoanP, hph]; omega
          have htr : pyTruthy (some n) = true := by simp [pyTruthy, hz]
          simp [List.foldl_cons, hstep, ih, List.filter_cons, hpi, hpl, h1.2, htr]
      · by_cases h2 : 500000 < n ∧ pyTruthy loan = false
        · have hstep : splitStep (inc, loan) n = (inc, some n) := by
            simp [splitStep, hph, h1, h2]
          have hpi : pIncP n = false := by simp [pIncP]; omega
          have hpl : pLoanP n = true := by simp [pLoanP, hph, h2.1]
          have htr : pyTruthy (some n) = true := by
            simp [pyTruthy]; omega
          simp [List.foldl_cons, hstep, ih, List.filter_cons, hpi, hpl, h2.2, htr]
        · have hstep : splitStep (inc, loan) n = (inc, loan) := by
            simp [splitStep, hph, h1, h2]
          rcases Decidable.not_and_iff_or_not.mp h1 with hlt | hinc
          · rcases Decidable.not_and_iff_or_not.mp h2 with hgt | hloan
            · -- n = 500000 : matches neither filter
              have hn : n = 500000 := by omega
              have hpi : pIncP n = false := by simp [pIncP, hn]
              have hpl : pLoanP n = false := by simp [pLoanP, hn]
              simp [List.foldl_cons, hstep, ih, List.filter_cons, hpi, hpl]
            · -- loan already truthy: the loan side keeps it, filter irrelevant
              have hloan' : pyTruthy loan = true := by
                cases h : pyTruthy loan
                · exact absurd h hloan
                · rfl
              have hpi : pIncP n = false := by simp [pIncP]; omega
              simp [List.foldl_cons, hstep, ih, List.filter_cons, hpi, hloan']
          · have hinc' : pyTruthy inc = true := by
              cases h : pyTruthy inc
              · exact absurd h hinc
              · rfl
            rcases Decidable.not_and_iff_or_not.mp h2 with hgt | hloan
            · have hpl : pLoanP n = false := by simp [pLoanP]; omega
              simp [List.foldl_cons, hstep, ih, List.filter_cons, hpl, hinc']
            · have hloan' : pyTruthy loan = true := by
                cases h : pyTruthy loan
                · exact absurd h hloan
                · rfl
              simp [List.foldl_cons, hstep, ih, List.filter_cons, hinc', hloan']

lemma splitAssign_char (nums : List Nat) :
    splitAssign nums =
      (((sortAsc nums).filter pIncP).head?, ((sortAsc nums).filter pLoanP).head?) := by
  unfold splitAssign
  rw [splitFold_char]
  simp [pyTruthy]

lemma head?_filter_prop {p : Nat → Bool} {l : List Nat} {x : Nat}
    (h : (l.filter p).head? = some x) : p x = true := by
  cases hf : l.filter p with
  | nil => rw [hf] at h; cases h
  | cons a t =>
    rw [hf] at h
    simp only [List.head?_cons, Option.some.injEq] at h
    subst h
    have hmem : a ∈ l.filter p := by rw [hf]; exact List.mem_cons_self a t
    exact (List.mem_filter.mp hmem).2

/-! ### Repair-row projection lemmas -/

lemma assignFormatFields_loan (r : Record) (b : Buckets) :
    (assignFormatFields r b).loan_amount = r.loan_amount := by
  obtain ⟨bi, be, bp, ba, bpn, bn, bem, bpu, bnu⟩ := b
  unfold assignFormatFields
  cases be <;> cases bpn <;> cases ba <;> cases bp <;> cases bem <;> cases bpu <;>
    cases bn <;> rfl

lemma assignFormatFields_income (r : Record) (b : Buckets) :
    (assignFormatFields r b).monthly_income = r.monthly_income := by
  obtain ⟨bi, be, bp, ba, bpn, bn, bem, bpu, bnu⟩ := b
  unfold assignFormatFields
  cases be <;> cases bpn <;> cases ba <;> cases bp <;> cases bem <;> cases bpu <;>
    cases bn <;> rfl

lemma applySplit_loan (r : Record) (nums : List Nat) :
    (applySplit r nums).loan_amount =
      match (splitAssign nums).2 with
      | some l => some (toString l)
      | none => r.loan_amount := by
  unfold applySplit
  rcases hsp : splitAssign nums with ⟨inc, loan⟩
  cases inc <;> cases loan <;> rfl

lemma applySplit_income (r : Record) (nums : List Nat) :
    (applySplit r nums).monthly_income =
      match (splitAssign nums).1 with
      | some m => some (toString m)
      | none => r.monthly_income := by
  unfold applySplit
  rcases hsp : splitAssign nums with ⟨inc, loan⟩
  cases inc <;> cases loan <;> rfl

lemma repairRow_loan (dbIds used : Finset Nat) (r : Record) (vs : List String) :
    (repairRow dbIds used r vs).1.loan_amount =
      match (splitAssign (mkBuckets ((vs.filter (fun v => !is_null v)).map
          normalizeVal)).bnumeric).2 with
      | some l => some (toString l)
      | none => r.loan_amount := by
  unfold repairRow
  cases (mkBuckets ((vs.filter (fun v => !is_null v)).map normalizeVal)).bid <;>
    simp [applySplit_loan, assignFormatFields_loan]

lemma repairRow_income (dbIds used : Finset Nat) (r : Record) (vs : List String) :
    (repairRow dbIds used r vs).1.monthly_income =
      match (splitAssign (mkBuckets ((vs.filter (fun v => !is_null v)).map
          normalizeVal)).bnumeric).1 with
      | some m => some (toString m)
      | none => r.monthly_income := by
  unfold repairRow
  cases (mkBuckets ((vs.filter (fun v => !is_null v)).map normalizeVal)).bid <;>
    simp [applySplit_income, assignFormatFields_income]

/-! ### Store lemmas -/

lemma storeLookup_append_self (st : Store) (k : String) (d : DbRow)
    (h : storeLookup st k = none) : storeLookup (st ++ [(k, d)]) k = some d := by
  induction st with
  | nil => simp [storeLookup]
  | cons kv rest ih =>
    by_cases hk : kv.1 = k
    · exfalso
      unfold storeLookup at h
      rw [List.find?_cons_of_pos _ (by simp [hk])] at h
      cases h
    · unfold storeLookup at h ⊢
      rw [List.find?_cons_of_neg _ (by simp [hk])] at h
      rw [List.cons_append, List.find?_cons_of_neg _ (by simp [hk])]
      exact ih h

lemma storeLookup_upd_self (st : Store) (k : String) (d : DbRow)
    (h : (storeLookup st k).isSome = true) :
    storeLookup (storeUpd st k d) k = some d := by
  induction st with
  | nil => simp [storeLookup] at h
  | cons kv rest ih =>
    by_cases hk : kv.1 = k
    · simp [storeLookup, storeUpd, hk]
    · unfold storeLookup at h
      rw [List.find?_cons_of_neg _ (by simp [hk])] at h
      unfold storeLookup storeUpd
      simp only [List.map_cons, hk, if_false]
      rw [List.find?_cons_of_neg _ (by simp [hk])]
      exact ih h

lemma upsertLoop_none_of_fail (failsOn : Record → Bool) :
    ∀ (rs : List Record) (st : Store) (ins upd : Nat),
      (∃ r ∈ rs, failsOn r = true) → upsertLoop failsOn rs st ins upd = none := by
  intro rs
  induction rs with
  | nil => intro st ins upd h; rcases h with ⟨r, hmem, _⟩; cases hmem
  | cons a rest ih =>
    intro st ins upd h
    by_cases hf : failsOn a = true
    · simp [upsertLoop, hf]
    · have hrest : ∃ r ∈ rest, failsOn r = true := by
        rcases h with ⟨r, hmem, hfr⟩
        rcases List.mem_cons.mp hmem with rfl | hmem'
        · exact absurd hfr hf
        · exact ⟨r, hmem', hfr⟩
      cases hk : keyOf a with
      | none => simp [upsertLoop, hf, hk]
      | some k =>
        cases hs : storeLookup st k with
        | none => simpa [upsertLoop, hf, hk, hs] using ih _ _ _ hrest
        | some d0 => simpa [upsertLoop, hf, hk, hs] using ih _ _ _ hrest

/-! ### Pipeline length and indexing lemmas -/

lemma repairRows_length (dbIds : Finset Nat) :
    ∀ (rows : List (Record × List String)) (used : Finset Nat),
      (repairRows dbIds used rows).length = rows.length := by
  intro rows
  induction rows with
  | nil => intro used; rfl
  | cons rw rest ih => intro used; simp [repairRows, ih]

lemma validateProcess_length (dbIds : Finset Nat) (mp : List (String × String))
    (rows : List (List (String × String))) :
    (validateProcess dbIds mp rows).length = rows.length := by
  unfold validateProcess repairAll
  rw [repairRows_length, List.length_map]

lemma getD_take_of_lt {α : Type} (l : List α) :
    ∀ (n i : Nat) (d : α), i < n → (l.take n).getD i d = l.getD i d := by
  induction l with
  | nil => intro n i d _; simp
  | cons a t ih =>
    intro n i d h
    cases n with
    | zero => omega
    | succ n =>
      cases i with
      | zero => rfl
      | succ i => simpa [List.take_succ_cons, List.getD_cons_succ] using ih n i d (by omega)

lemma getD_map_of_lt {α β : Type} (f : α → β) (l : List α) :
    ∀ (i : Nat) (d : β) (d' : α), i < l.length → (l.map f).getD i d = f (l.getD i d') := by
  induction l with
  | nil => intro i d d' h; simp at h
  | cons a t ih =>
    intro i d d' h
    cases i with
    | zero => rfl
    | succ i => simpa [List.getD_cons_succ] using ih i d d' (by simpa using h)

/-! ## Claim theorems -/

/-- Claim C1: the claim says every batch runs the INVALIDATED pass before the
REPAIRED pass, nulling validator-failing cells of the mapped frame.  The
endpoints never call `invalidate`, although the source's own comments label
it "PASS 1" and say its validator table is "used in both invalidation &
repair".  Witnessed here on a one-row batch whose `phone_number` cell is
`"ab"`: the shipped pipeline emits `phone_number = "ab"` even though
`valid_phone "ab"` fails, while the pipeline with the INVALIDATED pass
inserted (as the claim describes) emits an empty `phone_number`. -/
theorem invalidate_never_called :
    (validateProcess ∅ [("phone", "phone_number")] [[("phone", "ab")]]).map
        (fun r => r.phone_number) = [some "ab"] ∧
    valid_phone "ab" = false ∧
    (invalidate (mappedRecord [("phone", "phone_number")] [("phone", "ab")])).phone_number =
      none ∧
    (specProcess ∅ [("phone", "phone_number")] [[("phone", "ab")]]).map
        (fun r => r.phone_number) = [none] := by
  decide

/-- Claim C2, counterexample: the decoding step does NOT absorb every oracle
failure.  A transport failure or non-JSON body (`requests.post` /
`r.json()` raising) propagates to the caller unchanged, and a JSON body that
is a bare number makes `"result" in raw` raise `TypeError`.  In both cases
`call_llm` produces an exception, not a mapping dictionary. -/
theorem call_llm_error_propagates :
    call_llm (fun _ => none) (Except.error PyErr.requestError) =
      Except.error PyErr.requestError ∧
    call_llm (fun _ => none) (Except.ok (Json.jnum 5)) = Except.error PyErr.typeError :=
  ⟨rfl, rfl⟩

/-- Claim C2, amended: for every response whose body parses to a JSON
OBJECT, the decoding step returns a mapping dictionary without raising —
the empty mapping in every fallback case — and it tolerates the mapping
nested under `result.mapping` or `result.result`, given at the root, given
as a JSON-encoded string (any `json.loads` outcome), or absent; transport
failures and non-JSON bodies, however, propagate as exceptions. -/
theorem call_llm_object_body_decodes :
    (∀ (loads : String → Option Json) (e : PyErr),
        call_llm loads (Except.error e) = Except.error e) ∧
    (∀ (loads : String → Option Json) (fields : List (String × Json)),
        ∃ mp, call_llm loads (Except.ok (Json.jobj fields)) = Except.ok mp) ∧
    (∀ (loads : String → Option Json) (ms : List (String × Json)),
        call_llm loads
            (Except.ok (Json.jobj [("result", Json.jobj [("mapping", Json.jobj ms)])])) =
          Except.ok (dropIsValid ms)) ∧
    (∀ (loads : String → Option Json) (ms : List (String × Json)),
        call_llm loads
            (Except.ok (Json.jobj [("result", Json.jobj [("result", Json.jobj ms)])])) =
          Except.ok (dropIsValid ms)) ∧
    (∀ (loads : String → Option Json) (ms : List (String × Json)),
        call_llm loads (Except.ok (Json.jobj [("mapping", Json.jobj ms)])) =
          Except.ok (dropIsValid ms)) ∧
    (∀ loads : String → Option Json,
        call_llm loads (Except.ok (Json.jobj [])) = Except.ok []) ∧
    (∀ (ms : List (String × Json)) (s : String),
        call_llm (fun _ => some (Json.jobj ms)) (Except.ok (Json.jobj [("mapping", Json.jstr s)])) =
          Except.ok (dropIsValid ms)) ∧
    (∀ s : String,
        call_llm (fun _ => none) (Except.ok (Json.jobj [("mapping", Json.jstr s)])) =
          Except.ok []) := by
  refine ⟨fun loads e => rfl, fun loads fields => ⟨_, rfl⟩, fun loads ms => rfl,
    fun loads ms => rfl, fun loads ms => rfl, fun loads => rfl, fun ms s => rfl,
    fun s => rfl⟩

/-- Claim C3, counterexample: the raw value `"0"` reaches the numeric bucket,
is not phone-shaped, and is the first (indeed only) remaining value below
500000, so the claim demands `monthly_income = 0`; the code assigns nothing,
because `if income:` treats the assigned `0` as unset. -/
theorem numeric_split_zero_counterexample :
    (mkBuckets ["0"]).bnumeric = [0] ∧
    valid_phone "0" = false ∧
    (0 : Nat) < 500000 ∧
    (repairRow ∅ ∅ emptyRecord ["0"]).1.monthly_income = none := by
  decide

/-- Claim C3, amended: the numeric split sorts the bucket ascending, skips
phone-shaped values AND the value zero (Python falsiness conflates an
assigned 0 with "not yet assigned", so 0 is never written and may be
overwritten), then assigns the first remaining value strictly below 500000
to `monthly_income` and the first strictly above 500000 to `loan_amount`;
500000 itself goes to neither.  The claim's two worked examples hold. -/
theorem numeric_split_characterization : ∀ nums : List Nat,
    splitAssign nums =
      (((sortAsc nums).filter pIncP).head?, ((sortAsc nums).filter pLoanP).head?) ∧
    (repairRow ∅ ∅ emptyRecord ["450000", "600000"]).1.monthly_income = some "450000" ∧
    (repairRow ∅ ∅ emptyRecord ["450000", "600000"]).1.loan_amount = some "600000" ∧
    (repairRow ∅ ∅ emptyRecord ["500000"]).1.monthly_income = none ∧
    (repairRow ∅ ∅ emptyRecord ["500000"]).1.loan_amount = none :=
  fun nums =>
    ⟨splitAssign_char nums, by decide, by decide, by decide, by decide⟩

/-- Claim C4, counterexample: the repair engine writes `loan_amount`
values above the documented 10000000 cap and `monthly_income` values below
the documented 25000 floor — the numeric split checks only the 500000
boundary. -/
theorem repair_loan_range_counterexample :
    (repairRow ∅ ∅ emptyRecord ["20000000"]).1.loan_amount = some "20000000" ∧
    ¬(20000000 ≤ 10000000) ∧
    (repairRow ∅ ∅ emptyRecord ["1000"]).1.monthly_income = some "1000" ∧
    ¬(25000 ≤ 1000) := by
  decide

/-- Claim C4, amended: whenever the repair pass changes `loan_amount` the
new value is the decimal string of an integer strictly greater than 500000
(no upper bound is enforced), and whenever it changes `monthly_income` the
new value is the decimal string of an integer strictly between 0 and 500000
(no 25000 floor is enforced). -/
theorem repair_numeric_bounds : ∀ (dbIds used : Finset Nat) (r : Record) (vs : List String),
    ((repairRow dbIds used r vs).1.loan_amount ≠ r.loan_amount →
      ∃ l : Nat, (repairRow dbIds used r vs).1.loan_amount = some (toString l) ∧
        500000 < l) ∧
    ((repairRow dbIds used r vs).1.monthly_income ≠ r.monthly_income →
      ∃ m : Nat, (repairRow dbIds used r vs).1.monthly_income = some (toString m) ∧
        0 < m ∧ m < 500000) := by
  intro dbIds used r vs
  constructor
  · intro hne
    rw [repairRow_loan] at hne ⊢
    rcases hsp : (splitAssign (mkBuckets ((vs.filter (fun v => !is_null v)).map
        normalizeVal)).bnumeric).2 with _ | l
    · exact absurd (by rw [hsp]) hne
    · refine ⟨l, rfl, ?_⟩
      have hchar := congrArg Prod.snd
        (splitAssign_char (mkBuckets ((vs.filter (fun v => !is_null v)).map
          normalizeVal)).bnumeric)
      rw [hsp] at hchar
      have hp : pLoanP l = true := head?_filter_prop hchar.symm
      simp only [pLoanP, Bool.and_eq_true, decide_eq_true_eq] at hp
      exact hp.2
  · intro hne
    rw [repairRow_income] at hne ⊢
    rcases hsp : (splitAssign (mkBuckets ((vs.filter (fun v => !is_null v)).map
        normalizeVal)).bnumeric).1 with _ | m
    · exact absurd (by rw [hsp]) hne
    · refine ⟨m, rfl, ?_⟩
      have hchar := congrArg Prod.fst
        (splitAssign_char (mkBuckets ((vs.filter (fun v => !is_null v)).map
          normalizeVal)).bnumeric)
      rw [hsp] at hchar
      have hp : pIncP m = true := head?_filter_prop hchar.symm
      simp only [pIncP, Bool.and_eq_true, decide_eq_true_eq] at hp
      exact ⟨hp.1.2, hp.2⟩

/-- Claim C4, witness: a run of the amended theorem at a concrete row where
the split writes both fields. -/
theorem repair_numeric_bounds_witness :
    ∃ l : Nat, (repairRow ∅ ∅ emptyRecord ["600000"]).1.loan_amount = some (toString l) ∧
      500000 < l :=
  (repair_numeric_bounds ∅ ∅ emptyRecord ["600000"]).1 (by decide)

/-- Claim C5: the allocator never hands out a number present in the store
or already used in the batch, always exceeds every previously seen numeric
suffix, starts at 101 when nothing has been seen, two sequential calls in a
batch return distinct identifier strings (whatever the store read of the
second call returns), and seeding with store `{A101, A105}` and batch
`{A106}` yields `A107`. -/
theorem next_id_allocator : ∀ dbIds dbIds2 used : Finset Nat,
    (∀ m ∈ dbIds ∪ used, m < nextIdNum dbIds used) ∧
    nextIdNum dbIds used ∉ dbIds ∪ used ∧
    (dbIds ∪ used = ∅ → nextIdNum dbIds used = 101) ∧
    (next_id dbIds2 (next_id dbIds used).2).1 ≠ (next_id dbIds used).1 ∧
    (next_id {101, 105} {106}).1 = "A107" := by
  intro dbIds dbIds2 used
  refine ⟨mem_lt_nextIdNum dbIds used, nextIdNum_not_mem dbIds used, ?_, ?_, by decide⟩
  · intro h
    rw [nextIdNum_eq, if_pos h]
  · intro heq
    have hlt : nextIdNum dbIds used < nextIdNum dbIds2 (insert (nextIdNum dbIds used) used) :=
      mem_lt_nextIdNum dbIds2 (insert (nextIdNum dbIds used) used) _
        (Finset.mem_union_right _ (Finset.mem_insert_self _ _))
    have heq' : "A" ++ toString (nextIdNum dbIds2 (insert (nextIdNum dbIds used) used)) =
        "A" ++ toString (nextIdNum dbIds used) := heq
    have := congrArg idSuffix heq'
    rw [idSuffix_mk, idSuffix_mk] at this
    omega

/-- Claim C5, witness: the concrete seeding of the claim, through the
theorem. -/
theorem next_id_allocator_witness :
    101 ∈ ({101, 105} : Finset Nat) ∪ {106} ∧
    101 < nextIdNum {101, 105} {106} ∧
    (next_id {101, 105} {106}).1 = "A107" :=
  ⟨by decide, (next_id_allocator {101, 105} ∅ {106}).1 101 (by decide),
    (next_id_allocator {101, 105} ∅ {106}).2.2.2.2⟩

/-- Claim C6, counterexample: `is_null` is not case-insensitive — `"NULL"`
(a casing of `"null"`), `"nat"` (a casing of `"NaT"`) and `"NONE"` all
fail the placeholder test. -/
theorem is_null_case_counterexample :
    is_null "NULL" = false ∧ is_null "nat" = false ∧ is_null "NONE" = false := by
  decide

/-- Claim C6, amended: `is_null` returns true exactly when the stripped
string is one of the six literal spellings `"nan"`, `"None"`, `"NaT"`,
`"none"`, `"null"`, `""` — the listed placeholder words in the exact casing
of the source, not in arbitrary casing. -/
theorem is_null_exact :
    (∀ s : String, is_null s = true ↔
      strip s ∈ (["nan", "None", "NaT", "none", "null", ""] : List String)) ∧
    is_null "" = true ∧ is_null "nan" = true ∧ is_null "None" = true ∧
    is_null "NaT" = true ∧ is_null "null" = true ∧ is_null "none" = true ∧
    is_null "  nan " = true ∧ is_null "NAN" = false :=
  ⟨fun s => by simp [is_null], by decide, by decide, by decide, by decide, by decide,
    by decide, by decide, by decide⟩

/-- Claim C6, witness: the characterization of `is_null` evaluated at
`"nan"`. -/
theorem is_null_exact_witness :
    is_null "nan" = true ↔
      strip "nan" ∈ (["nan", "None", "NaT", "none", "null", ""] : List String) :=
  is_null_exact.1 "nan"

/-- Claim C7, counterexample: the name rule does not require
alphabetic-with-spaces.  `"@#$"` fails every earlier rule, has length 3 and
no digits, and lands in the name bucket although it contains no letter at
all. -/
theorem name_bucket_counterexample :
    classifyValue "@#$" = Classified.cname "@#$" ∧
    ("@#$".data.all (fun c => c.isAlpha || c = ' ')) = false := by
  decide

/-- Claim C7, amended: a value that fails all eight earlier classification
rules is placed in the name bucket (title-cased) exactly when its length is
at least 3 and it contains no digit character; being alphabetic-with-spaces
is NOT required. -/
theorem name_bucket_rule : ∀ v : String,
    valid_id v = false → valid_email v = false → valid_pan v = false →
    valid_aadhaar v = false → valid_phone v = false →
    lowerStr v ∉ EMPLOYMENT_TYPES → lowerStr v ∉ LOAN_PURPOSES →
    isdigitL v.data = false →
    classifyValue v =
      (if 3 ≤ v.length ∧ v.data.all (fun c => !c.isDigit) then Classified.cname (title v)
       else Classified.discarded) := by
  intro v h1 h2 h3 h4 h5 h6 h7 h8
  simp [classifyValue, h1, h2, h3, h4, h5, h6, h7, h8]

/-- Claim C7, witness: the rule applied to `"john smith"`. -/
theorem name_bucket_rule_witness :
    classifyValue "john smith" = Classified.cname "John Smith" := by
  have h := name_bucket_rule "john smith" (by decide) (by decide) (by decide) (by decide)
    (by decide) (by decide) (by decide) (by decide)
  rw [h]
  decide

/-- Claim C8, counterexample: `upsert` is one transaction for the whole
batch, not one per record.  With an empty store and a batch `[recA1, recA2]`
whose second write fails, the already-executed insert of `recA1` is rolled
back (`A1` is absent afterwards), even though inserting `recA1` alone
succeeds. -/
theorem upsert_per_record_counterexample :
    storeLookup (upsertFinalStore failsA2 [] [recA1, recA2]) "A1" = none ∧
    upsertRes noFail [] [recA1] = some ([("A1", toDbRow recA1)], 1, 0) := by
  decide

/-- Claim C8, amended: `upsert` wraps the whole batch in a single
`engine.begin()` transaction: a persistence write failure on any record of
the batch aborts the call and rolls back every record, leaving the durable
store exactly as it was before the call (so no committed row is corrupted —
but only because nothing of the batch commits at all). -/
theorem upsert_batch_txn : ∀ (failsOn : Record → Bool) (st : Store) (rs : List Record),
    (∃ r ∈ rs, failsOn r = true) →
    upsertRes failsOn st rs = none ∧ upsertFinalStore failsOn st rs = st := by
  intro f st rs h
  have hn : upsertLoop f rs st 0 0 = none := upsertLoop_none_of_fail f rs st 0 0 h
  exact ⟨hn, by simp [upsertFinalStore, upsertRes, hn]⟩

/-- Claim C8, witness: the amended theorem at the concrete failing batch. -/
theorem upsert_batch_txn_witness :
    upsertRes failsA2 [] [recA1, recA2] = none ∧
    upsertFinalStore failsA2 [] [recA1, recA2] = [] :=
  upsert_batch_txn failsA2 [] [recA1, recA2] ⟨recA2, by decide, by decide⟩

/-- Claim C9: persisting the same record twice (its key absent from the
store beforehand) inserts on the first run — counts `(1, 0)` — and updates
on the second — counts `(0, 1)` — and the finally stored row carries the
record's (second run's) non-key values. -/
theorem upsert_idempotent : ∀ (st : Store) (r : Record) (k : String),
    keyOf r = some k → storeLookup st k = none →
    upsertRes noFail st [r] = some (st ++ [(k, toDbRow r)], 1, 0) ∧
    upsertRes noFail (st ++ [(k, toDbRow r)]) [r] =
      some (storeUpd (st ++ [(k, toDbRow r)]) k (toDbRow r), 0, 1) ∧
    storeLookup (storeUpd (st ++ [(k, toDbRow r)]) k (toDbRow r)) k = some (toDbRow r) := by
  intro st r k hk hst
  have hl1 : storeLookup (st ++ [(k, toDbRow r)]) k = some (toDbRow r) :=
    storeLookup_append_self st k (toDbRow r) hst
  refine ⟨?_, ?_, ?_⟩
  · simp [upsertRes, upsertLoop, noFail, hk, hst]
  · simp [upsertRes, upsertLoop, noFail, hk, hl1]
  · exact storeLookup_upd_self _ _ _ (by rw [hl1]; rfl)

/-- Claim C9, witness: the double-upsert scenario at a concrete record and
the empty store. -/
theorem upsert_idempotent_witness :
    upsertRes noFail [] [recW] = some ([("A300", toDbRow recW)], 1, 0) ∧
    upsertRes noFail [("A300", toDbRow recW)] [recW] =
      some (storeUpd [("A300", toDbRow recW)] "A300" (toDbRow recW), 0, 1) ∧
    storeLookup (storeUpd [("A300", toDbRow recW)] "A300" (toDbRow recW)) "A300" =
      some (toDbRow recW) := by
  have h := upsert_idempotent [] recW "A300" (by decide) (by decide)
  simpa using h

/-- Claim C10: the preview of the `validate` endpoint contains exactly the
first `min 20 n` repaired rows of an `n`-row batch — every row is repaired,
but rows beyond the twentieth are dropped from the preview. -/
theorem preview_first_twenty : ∀ (dbIds : Finset Nat) (mp : List (String × String))
    (rows : List (List (String × String))),
    (validatePreview dbIds mp rows).length = min rows.length 20 ∧
    ∀ i : Nat, i < (validatePreview dbIds mp rows).length →
      (validatePreview dbIds mp rows).getD i emptyRecord =
        fillNa ((validateProcess dbIds mp rows).getD i emptyRecord) := by
  intro dbIds mp rows
  have hlen : (validateProcess dbIds mp rows).length = rows.length :=
    validateProcess_length dbIds mp rows
  constructor
  · unfold validatePreview
    rw [List.length_map, List.length_take, hlen, Nat.min_comm]
  · intro i hi
    unfold validatePreview at hi ⊢
    rw [List.length_map, List.length_take, hlen] at hi
    have hi20 : i < 20 := lt_of_lt_of_le hi (Nat.min_le_left _ _)
    rw [getD_map_of_lt _ _ i emptyRecord emptyRecord
        (by rw [List.length_take, hlen]; omega),
      getD_take_of_lt _ _ _ _ hi20]

/-- Claim C10, witness: the theorem at a concrete one-row batch. -/
theorem preview_first_twenty_witness :
    (validatePreview ∅ [] [[("a", "x")]]).length = min 1 20 ∧
    (validatePreview ∅ [] [[("a", "x")]]).getD 0 emptyRecord =
      fillNa ((validateProcess ∅ [] [[("a", "x")]]).getD 0 emptyRecord) :=
  ⟨(preview_first_twenty ∅ [] [[("a", "x")]]).1,
    (preview_first_twenty ∅ [] [[("a", "x")]]).2 0 (by decide)⟩

end LoanApp
